import Mathlib

/-!
Shallow embedding of `src/main.py` (Instagram post downloader front end).

Strings are modelled as `List Char`. The regular expressions in
`extract_shortcode` are all of the shape "literal prefix followed by a
greedy nonempty capture of `[a-zA-Z0-9_-]`", so `re.search` for them is
modelled by scanning the string left to right for the first position where
the literal matches and at least one shortcode character follows; the
capture is the maximal run of shortcode characters after the literal.

`download_content`'s interaction with the subprocess is modelled by a
`ProcOutcome`: either the process completed with a return code and stderr
text, or some exception was raised during launch/supervision (the
`except Exception` path of the source).

The filesystem state seen by `move_and_collect_files` is modelled by the
list of file names in the destination folder (`destFiles`, `none` when the
folder does not exist yet) and the list of top-level items of the working
directory.  A directory item carries an optional failure point `failAt`
modelling an `OSError`: `failAt = some k` with `k <` number of files means
moving the k-th file raises, `k =` number of files means `shutil.rmtree`
raises; otherwise every filesystem operation on that directory succeeds.
Moved files are recorded by their resolved names inside the destination
folder (the Python code records the full path `target_folder/name`).
-/

namespace InstaDL

/-! ### Identifier extraction (`extract_shortcode`, src/main.py lines 24-36) -/

/-- The character class `[a-zA-Z0-9_-]` of the capture groups. -/
def shortcodeChar (c : Char) : Bool :=
  c.isAlpha || c.isDigit || c == '_' || c == '-'

/-- Try to match `lit` followed by a nonempty greedy run of shortcode
characters at the start of `s`; return the captured run. -/
def matchAt (lit s : List Char) : Option (List Char) :=
  if lit.isPrefixOf s then
    let cap := (s.drop lit.length).takeWhile shortcodeChar
    if cap.isEmpty then none else some cap
  else none

/-- `re.search` for a pattern `lit([a-zA-Z0-9_-]+)`: leftmost match wins,
the capture is greedy. -/
def searchPattern (lit : List Char) : List Char → Option (List Char)
  | [] => matchAt lit []
  | c :: rest =>
    match matchAt lit (c :: rest) with
    | some cap => some cap
    | none => searchPattern lit rest

/-- The literal parts of the four regex patterns, in source order. -/
def urlPatterns : List (List Char) :=
  ["instagram.com/p/".data, "instagram.com/reel/".data, "/p/".data, "/reel/".data]

/-- Try the patterns in order; the first one that matches anywhere wins. -/
def tryPatterns (url : List Char) : List (List Char) → Option (List Char)
  | [] => none
  | p :: ps =>
    match searchPattern p url with
    | some cap => some cap
    | none => tryPatterns url ps

/-- `extract_shortcode`: `none` models the `ValueError` raised when no
pattern matches. -/
def extract_shortcode (url : List Char) : Option (List Char) :=
  tryPatterns url urlPatterns

/-! ### Failure classification (`download_content`, src/main.py lines 38-92) -/

/-- Python `str.strip()`. -/
def pystrip (s : List Char) : List Char :=
  ((s.dropWhile Char.isWhitespace).reverse.dropWhile Char.isWhitespace).reverse

/-- Python `needle in hay` substring test. -/
def containsSub (needle : List Char) : List Char → Bool
  | [] => needle.isPrefixOf []
  | c :: rest => needle.isPrefixOf (c :: rest) || containsSub needle rest

/-- Python `str.lower()` (the stderr text of interest is ASCII). -/
def lowerStr (s : List Char) : List Char :=
  s.map Char.toLower

def successMsg : List Char := "Download successful!".data

def privateMsg : List Char := "This post is private or requires a login.".data

def notFoundMsg : List Char := "This post could not be found (404 Error).".data

def rateLimitMsg : List Char :=
  "Instagram rate limit reached. Please try again later.".data

/-- The message of the nonzero-return-code branch (src/main.py lines 82-89). -/
def failureMessage (stderr : List Char) : List Char :=
  let error_message := pystrip stderr
  if containsSub "Private".data error_message
      || containsSub "Login required".data error_message then
    privateMsg
  else if containsSub "404".data error_message
      || containsSub "not found".data (lowerStr error_message) then
    notFoundMsg
  else if containsSub "Rate limit".data error_message then
    rateLimitMsg
  else
    "Download failed: ".data
      ++ (if error_message.isEmpty then "Unknown error".data else error_message)

/-- Outcome of the subprocess run: completion with return code, stdout and
stderr, or an exception raised during launch/supervision. -/
inductive ProcOutcome where
  | completed (returncode : Int) (stdout stderr : List Char)
  | raised (msg : List Char)

/-- `download_content`: (success, message). The `raised` case is the
`except Exception` handler of the source (src/main.py lines 91-92). -/
def download_content (o : ProcOutcome) : Bool × List Char :=
  match o with
  | .completed rc _ err =>
    if rc = 0 then (true, successMsg) else (false, failureMessage err)
  | .raised m => (false, "An unexpected error occurred: ".data ++ m)

/-! ### Submission flow (`main`, src/main.py lines 217-226) -/

/-- What `main` does with a submitted URL before any subprocess work. -/
inductive MainAction where
  | warnEmptyUrl
  | invalidUrlError
  | runDownload (shortcode : List Char)
deriving DecidableEq

/-- The decision taken on form submission: empty URL warns, extraction
failure reports the format error, only a successful extraction reaches
`download_content`. -/
def handle_submission (url : List Char) : MainAction :=
  if url.isEmpty then .warnEmptyUrl
  else
    match extract_shortcode url with
    | none => .invalidUrlError
    | some s => .runDownload s

/-! ### File relocation (`move_and_collect_files`, src/main.py lines 94-127) -/

/-- Python `os.path.splitext`: split at the last dot, unless every
character before it is a dot (then there is no extension). -/
def lastDot : List Char → Option Nat
  | [] => none
  | c :: rest =>
    match lastDot rest with
    | some i => some (i + 1)
    | none => if c == '.' then some 0 else none

def splitext (f : List Char) : List Char × List Char :=
  match lastDot f with
  | none => (f, [])
  | some i => if (f.take i).all (· == '.') then (f, []) else (f.take i, f.drop i)

/-- Candidate name `f"{base}_{counter}{ext}"`. -/
def numberedName (base ext : List Char) (counter : Nat) : List Char :=
  base ++ '_' :: Nat.toDigits 10 counter ++ ext

/-- The `while os.path.exists(destination_path)` loop: try counters
`counter, counter+1, ...` until a free name is found.  The fuel argument
makes the loop structurally terminating; with `fuel = dest.length + 1`
the `dest.length + 1` distinct candidates cannot all be taken, so the
fuel-exhausted default is never reached. -/
def renameLoop (dest : List (List Char)) (base ext : List Char) :
    Nat → Nat → List Char
  | counter, 0 => numberedName base ext counter
  | counter, fuel + 1 =>
    let cand := numberedName base ext counter
    if dest.contains cand then renameLoop dest base ext (counter + 1) fuel
    else cand

/-- Collision handling of src/main.py lines 113-119: keep the name if it is
free, otherwise append the first free `_counter` suffix before the
extension, counting from 1. -/
def resolveCollision (dest : List (List Char)) (file : List Char) : List Char :=
  if dest.contains file then
    let p := splitext file
    renameLoop dest p.1 p.2 1 (dest.length + 1)
  else file

/-- `shutil.move` of one file into the destination folder: the new state of
the destination and the resolved name recorded in `moved_files_paths`. -/
def moveFile (dest : List (List Char)) (file : List Char) :
    List (List Char) × List Char :=
  let name := resolveCollision dest file
  (dest ++ [name], name)

/-- The inner `for file in os.listdir(item_path)` loop, moving every file of
one source directory. Returns the new destination contents and the resolved
names in move order. -/
def moveFiles (dest : List (List Char)) :
    List (List Char) → List (List Char) × List (List Char)
  | [] => (dest, [])
  | f :: fs =>
    let r1 := moveFile dest f
    let r2 := moveFiles r1.1 fs
    (r2.1, r1.2 :: r2.2)

/-- A top-level directory of the working directory: its name, the files it
contains, and the optional failure point of its filesystem operations
(`some k`, `k <` number of files: moving the k-th file raises `OSError`;
`k =` number of files: `shutil.rmtree` raises; larger `k` or `none`: no
failure). -/
structure DirEntry where
  name : List Char
  files : List (List Char)
  failAt : Option Nat
deriving DecidableEq

/-- A top-level item of the working directory. -/
inductive Item where
  | file (name : List Char)
  | dir (d : DirEntry)
deriving DecidableEq

def itemName : Item → List Char
  | .file n => n
  | .dir d => d.name

/-- Python `item.startswith('.')`. -/
def hiddenName (n : List Char) : Bool :=
  match n with
  | [] => false
  | c :: _ => c == '.'

/-- The test of src/main.py line 106: the outer loop processes an item
exactly when it is a directory other than the destination folder whose
name does not start with a dot. -/
def processedItem (target : List Char) : Item → Bool
  | .file _ => false
  | .dir d => !((d.name == target) || hiddenName d.name)

/-- One iteration of the outer loop body for an eligible directory: move
the files until the failure point (if any), then remove the directory
(`shutil.rmtree`) when nothing failed. Returns the destination contents,
the recorded moves, and the directory if it survives. The `some k` case is
the `except OSError` handler: the moves already made stay made and
recorded, the directory is not removed. -/
def processDir (dest : List (List Char)) (d : DirEntry) :
    List (List Char) × List (List Char) × Option DirEntry :=
  match d.failAt with
  | none =>
    let r := moveFiles dest d.files
    (r.1, r.2, none)
  | some k =>
    if k ≤ d.files.length then
      let r := moveFiles dest (d.files.take k)
      (r.1, r.2, some ⟨d.name, d.files.drop k, d.failAt⟩)
    else
      let r := moveFiles dest d.files
      (r.1, r.2, none)

/-- The outer `for item in os.listdir(current_dir)` loop: plain files,
the destination folder itself and hidden directories are skipped; every
other directory is processed. Returns the remaining items, the final
destination contents and the accumulated `moved_files_paths`. -/
def runItems (target : List Char) (dest : List (List Char)) :
    List Item → List Item × List (List Char) × List (List Char)
  | [] => ([], dest, [])
  | it :: rest =>
    match it with
    | .file n =>
      let r := runItems target dest rest
      (.file n :: r.1, r.2.1, r.2.2)
    | .dir d =>
      if (d.name == target) || hiddenName d.name then
        let r := runItems target dest rest
        (.dir d :: r.1, r.2.1, r.2.2)
      else
        let p := processDir dest d
        let r := runItems target p.1 rest
        (p.2.2.elim r.1 (fun d2 => .dir d2 :: r.1), r.2.1, p.2.1 ++ r.2.2)

/-- The working directory as `move_and_collect_files` sees it. -/
structure FS where
  target : List Char
  destFiles : Option (List (List Char))
  items : List Item

/-- `move_and_collect_files`: create the destination folder when missing
(`os.makedirs`), walk the top-level items, return the new state and the
list of moved files. -/
def move_and_collect_files (fs : FS) : FS × List (List Char) :=
  let dest0 := fs.destFiles.getD []
  let r := runItems fs.target dest0 fs.items
  ({ target := fs.target, destFiles := some r.2.1, items := r.1 }, r.2.2)

/-! ### Helper lemmas about the pattern search -/

theorem isPrefixOf_exists {l s : List Char} (h : l.isPrefixOf s = true) :
    ∃ t, s = l ++ t := by
  induction l generalizing s with
  | nil => exact ⟨s, rfl⟩
  | cons a as ih =>
    cases s with
    | nil => simp [List.isPrefixOf] at h
    | cons b bs =>
      simp only [List.isPrefixOf, Bool.and_eq_true, beq_iff_eq] at h
      obtain ⟨t, ht⟩ := ih h.2
      exact ⟨t, by simp [h.1, ht]⟩

theorem isPrefixOf_append_self (l t : List Char) : l.isPrefixOf (l ++ t) = true := by
  induction l with
  | nil => simp [List.isPrefixOf]
  | cons a as ih => simp [List.isPrefixOf, ih]

theorem takeWhile_all_self (p : Char → Bool) (l : List Char) :
    (l.takeWhile p).all p = true := by
  induction l with
  | nil => simp
  | cons a as ih =>
    by_cases h : p a
    · simp [List.takeWhile, h, ih]
    · simp [List.takeWhile, h]

theorem dropWhile_head_false (p : Char → Bool) (l : List Char) :
    ∀ x, (l.dropWhile p).head? = some x → p x = false := by
  induction l with
  | nil => intro x hx; simp at hx
  | cons a as ih =>
    intro x hx
    by_cases h : p a
    · exact ih x (by simpa [List.dropWhile, h] using hx)
    · simp [List.dropWhile, h] at hx
      simpa [hx] using h

theorem matchAt_sound {lit s cap : List Char} (h : matchAt lit s = some cap) :
    ∃ b, s = lit ++ cap ++ b ∧ cap ≠ [] ∧ cap.all shortcodeChar = true ∧
      ∀ x, b.head? = some x → shortcodeChar x = false := by
  unfold matchAt at h
  by_cases hp : lit.isPrefixOf s
  · simp only [hp, if_true] at h
    obtain ⟨t, ht⟩ := isPrefixOf_exists hp
    have hd : s.drop lit.length = t := by rw [ht, List.drop_left]
    rw [hd] at h
    by_cases he : (t.takeWhile shortcodeChar).isEmpty
    · simp [he] at h
    · rw [if_neg he] at h
      have h2 := Option.some.inj h
      subst h2
      refine ⟨t.dropWhile shortcodeChar, ?_, ?_, ?_, ?_⟩
      · rw [ht, List.append_assoc, List.takeWhile_append_dropWhile]
      · simpa using he
      · exact takeWhile_all_self _ _
      · exact dropWhile_head_false _ _
  · simp [hp] at h

theorem searchPattern_sound {lit s cap : List Char}
    (h : searchPattern lit s = some cap) :
    ∃ a b, s = a ++ lit ++ cap ++ b ∧ cap ≠ [] ∧ cap.all shortcodeChar = true ∧
      ∀ x, b.head? = some x → shortcodeChar x = false := by
  induction s with
  | nil =>
    obtain ⟨b, hb, h1, h2, h3⟩ := matchAt_sound (h : matchAt lit [] = some cap)
    exact ⟨[], b, by simpa using hb, h1, h2, h3⟩
  | cons c rest ih =>
    rw [searchPattern] at h
    cases hm : matchAt lit (c :: rest) with
    | some cap0 =>
      rw [hm] at h
      obtain ⟨b, hb, h1, h2, h3⟩ := matchAt_sound hm
      cases h
      exact ⟨[], b, by simpa using hb, h1, h2, h3⟩
    | none =>
      rw [hm] at h
      obtain ⟨a, b, hb, h1, h2, h3⟩ := ih h
      exact ⟨c :: a, b, by simp [hb], h1, h2, h3⟩

theorem searchPattern_isSome_of_matchAt {lit s : List Char}
    (h : (matchAt lit s).isSome = true) : (searchPattern lit s).isSome = true := by
  cases s with
  | nil => exact h
  | cons c rest =>
    rw [searchPattern]
    cases hm : matchAt lit (c :: rest) with
    | some cap => simp
    | none => rw [hm] at h; simp at h

theorem searchPattern_isSome_cons {lit rest : List Char} (c : Char)
    (h : (searchPattern lit rest).isSome = true) :
    (searchPattern lit (c :: rest)).isSome = true := by
  rw [searchPattern]
  cases hm : matchAt lit (c :: rest) with
  | some cap => simp
  | none => exact h

theorem matchAt_isSome_here (lit b : List Char) (x : Char)
    (hx : shortcodeChar x = true) :
    (matchAt lit (lit ++ x :: b)).isSome = true := by
  unfold matchAt
  rw [isPrefixOf_append_self, if_pos rfl, List.drop_left]
  simp [List.takeWhile, hx]

theorem searchPattern_complete (lit a b : List Char) (x : Char)
    (hx : shortcodeChar x = true) :
    (searchPattern lit (a ++ lit ++ x :: b)).isSome = true := by
  induction a with
  | nil =>
    exact searchPattern_isSome_of_matchAt (by simpa using matchAt_isSome_here lit b x hx)
  | cons c a ih =>
    exact searchPattern_isSome_cons c (by simpa using ih)

theorem tryPatterns_sound {url cap : List Char} {ps : List (List Char)}
    (h : tryPatterns url ps = some cap) :
    ∃ p ∈ ps, searchPattern p url = some cap := by
  induction ps with
  | nil => simp [tryPatterns] at h
  | cons p ps ih =>
    rw [tryPatterns] at h
    cases hm : searchPattern p url with
    | some c => rw [hm] at h; cases h; exact ⟨p, by simp, hm⟩
    | none =>
      rw [hm] at h
      obtain ⟨q, hq, hq2⟩ := ih h
      exact ⟨q, by simp [hq], hq2⟩

theorem tryPatterns_isSome {url p : List Char} {ps : List (List Char)}
    (hp : p ∈ ps) (h : (searchPattern p url).isSome = true) :
    (tryPatterns url ps).isSome = true := by
  induction ps with
  | nil => simp at hp
  | cons q ps ih =>
    rw [tryPatterns]
    cases hm : searchPattern q url with
    | some c => simp
    | none =>
      rcases List.mem_cons.mp hp with hpq | hpm
      · rw [hpq] at h; rw [hm] at h; simp at h
      · exact ih hpm

/-! ### Claim theorems: identifier extraction -/

/-- C1: for every URL containing a segment `/p/<id>` or `/reel/<id>` with
`<id>` a nonempty run of alphanumerics, underscore and hyphen,
`extract_shortcode` succeeds and returns exactly such a captured segment:
a maximal alphanumeric/underscore/hyphen run following `/p/` or `/reel/`
in the URL. -/
theorem extract_shortcode_captures_id (url : List Char)
    (h : (∃ a c b, url = a ++ "/p/".data ++ c ++ b ∧ c ≠ [] ∧ c.all shortcodeChar = true)
       ∨ (∃ a c b, url = a ++ "/reel/".data ++ c ++ b ∧ c ≠ [] ∧ c.all shortcodeChar = true)) :
    ∃ t a b, extract_shortcode url = some t ∧ t ≠ [] ∧ t.all shortcodeChar = true ∧
      (url = a ++ "/p/".data ++ t ++ b ∨ url = a ++ "/reel/".data ++ t ++ b) ∧
      ∀ x, b.head? = some x → shortcodeChar x = false := by
  have hsome : (tryPatterns url urlPatterns).isSome = true := by
    rcases h with ⟨a, c, b, hu, hc, hall⟩ | ⟨a, c, b, hu, hc, hall⟩
    · cases c with
      | nil => exact absurd rfl hc
      | cons x c2 =>
        have hx : shortcodeChar x = true := by
          simp only [List.all_cons, Bool.and_eq_true] at hall
          exact hall.1
        refine tryPatterns_isSome (p := "/p/".data) (by simp [urlPatterns]) ?_
        rw [show url = a ++ "/p/".data ++ x :: (c2 ++ b) by simp [hu]]
        exact searchPattern_complete _ _ _ _ hx
    · cases c with
      | nil => exact absurd rfl hc
      | cons x c2 =>
        have hx : shortcodeChar x = true := by
          simp only [List.all_cons, Bool.and_eq_true] at hall
          exact hall.1
        refine tryPatterns_isSome (p := "/reel/".data) (by simp [urlPatterns]) ?_
        rw [show url = a ++ "/reel/".data ++ x :: (c2 ++ b) by simp [hu]]
        exact searchPattern_complete _ _ _ _ hx
  obtain ⟨t, ht⟩ := Option.isSome_iff_exists.mp hsome
  obtain ⟨p, hp, hsp⟩ := tryPatterns_sound ht
  obtain ⟨a2, b2, hu2, ht1, ht2, ht3⟩ := searchPattern_sound hsp
  have hex : extract_shortcode url = some t := ht
  simp only [urlPatterns, List.mem_cons, List.not_mem_nil, or_false] at hp
  rcases hp with rfl | rfl | rfl | rfl
  · refine ⟨t, a2 ++ "instagram.com".data, b2, hex, ht1, ht2, Or.inl ?_, ht3⟩
    rw [hu2]
    simp only [List.append_assoc]
    rfl
  · refine ⟨t, a2 ++ "instagram.com".data, b2, hex, ht1, ht2, Or.inr ?_, ht3⟩
    rw [hu2]
    simp only [List.append_assoc]
    rfl
  · exact ⟨t, a2, b2, hex, ht1, ht2, Or.inl hu2, ht3⟩
  · exact ⟨t, a2, b2, hex, ht1, ht2, Or.inr hu2, ht3⟩

theorem extract_shortcode_captures_id_witness :
    (("https://www.instagram.com/p/C6vX_-3/x".data : List Char)
        = "https://www.instagram.com".data ++ "/p/".data ++ "C6vX_-3".data ++ "/x".data
      ∧ ("C6vX_-3".data : List Char) ≠ [] ∧ "C6vX_-3".data.all shortcodeChar = true) ∧
    (∃ t a b, extract_shortcode "https://www.instagram.com/p/C6vX_-3/x".data = some t ∧
      t ≠ [] ∧ t.all shortcodeChar = true ∧
      ("https://www.instagram.com/p/C6vX_-3/x".data = a ++ "/p/".data ++ t ++ b ∨
       "https://www.instagram.com/p/C6vX_-3/x".data = a ++ "/reel/".data ++ t ++ b) ∧
      ∀ x, b.head? = some x → shortcodeChar x = false) :=
  ⟨⟨by decide, by decide, by decide⟩,
   extract_shortcode_captures_id _
     (Or.inl ⟨"https://www.instagram.com".data, "C6vX_-3".data, "/x".data,
       by decide, by decide, by decide⟩)⟩

/-- C6: the four URL patterns are tried in their fixed source order and the
first matching one wins: if all patterns before position `k` fail on the
URL and the pattern at position `k` captures `cap`, then
`extract_shortcode` returns `cap`. -/
theorem extract_shortcode_first_match_wins (url cap : List Char) (k : Nat)
    (hk : k < urlPatterns.length)
    (hnone : ∀ j, j < k → searchPattern (urlPatterns.getD j []) url = none)
    (hsome : searchPattern (urlPatterns.getD k []) url = some cap) :
    extract_shortcode url = some cap := by
  have hk4 : k < 4 := by simpa [urlPatterns] using hk
  interval_cases k
  · rw [show urlPatterns.getD 0 [] = "instagram.com/p/".data from rfl] at hsome
    simp [extract_shortcode, tryPatterns, urlPatterns, hsome]
  · have h0 := hnone 0 (by omega)
    rw [show urlPatterns.getD 0 [] = "instagram.com/p/".data from rfl] at h0
    rw [show urlPatterns.getD 1 [] = "instagram.com/reel/".data from rfl] at hsome
    simp [extract_shortcode, tryPatterns, urlPatterns, h0, hsome]
  · have h0 := hnone 0 (by omega)
    have h1 := hnone 1 (by omega)
    rw [show urlPatterns.getD 0 [] = "instagram.com/p/".data from rfl] at h0
    rw [show urlPatterns.getD 1 [] = "instagram.com/reel/".data from rfl] at h1
    rw [show urlPatterns.getD 2 [] = "/p/".data from rfl] at hsome
    simp [extract_shortcode, tryPatterns, urlPatterns, h0, h1, hsome]
  · have h0 := hnone 0 (by omega)
    have h1 := hnone 1 (by omega)
    have h2 := hnone 2 (by omega)
    rw [show urlPatterns.getD 0 [] = "instagram.com/p/".data from rfl] at h0
    rw [show urlPatterns.getD 1 [] = "instagram.com/reel/".data from rfl] at h1
    rw [show urlPatterns.getD 2 [] = "/p/".data from rfl] at h2
    rw [show urlPatterns.getD 3 [] = "/reel/".data from rfl] at hsome
    simp [extract_shortcode, tryPatterns, urlPatterns, h0, h1, h2, hsome]

theorem extract_shortcode_first_match_wins_witness :
    searchPattern (urlPatterns.getD 0 []) "instagram.com/reel/abc/p/xyz".data = none ∧
    searchPattern (urlPatterns.getD 1 []) "instagram.com/reel/abc/p/xyz".data
      = some "abc".data ∧
    searchPattern (urlPatterns.getD 2 []) "instagram.com/reel/abc/p/xyz".data
      = some "xyz".data ∧
    extract_shortcode "instagram.com/reel/abc/p/xyz".data = some "abc".data :=
  ⟨by decide, by decide, by decide,
   extract_shortcode_first_match_wins _ _ 1 (by decide)
     (fun j hj => by
       have hj0 : j = 0 := Nat.lt_one_iff.mp hj
       subst hj0
       decide)
     (by decide)⟩

/-- C3: when no recognized pattern matches the URL, `extract_shortcode`
fails (the `ValueError`) and the submission flow never reaches
`download_content`: no external process is launched. -/
theorem invalid_url_no_download (url : List Char)
    (h : ∀ p ∈ urlPatterns, searchPattern p url = none) :
    extract_shortcode url = none ∧
      ∀ s, handle_submission url ≠ MainAction.runDownload s := by
  have h0 := h "instagram.com/p/".data (by simp [urlPatterns])
  have h1 := h "instagram.com/reel/".data (by simp [urlPatterns])
  have h2 := h "/p/".data (by simp [urlPatterns])
  have h3 := h "/reel/".data (by simp [urlPatterns])
  have hex : extract_shortcode url = none := by
    simp [extract_shortcode, tryPatterns, urlPatterns, h0, h1, h2, h3]
  refine ⟨hex, ?_⟩
  intro s
  unfold handle_submission
  by_cases he : url.isEmpty <;> simp [he, hex]

theorem invalid_url_no_download_witness :
    searchPattern "instagram.com/p/".data "hello world".data = none ∧
    extract_shortcode "hello world".data = none ∧
    handle_submission "hello world".data ≠ MainAction.runDownload "h".data :=
  ⟨by decide,
   (invalid_url_no_download "hello world".data
      (fun p hp => by fin_cases hp <;> decide)).1,
   (invalid_url_no_download "hello world".data
      (fun p hp => by fin_cases hp <;> decide)).2 "h".data⟩

/-! ### Claim theorems: failure classification -/

/-- C2 counterexample: stderr `"Rate limit"` contains neither `"Private"`
nor `"404"`, yet the returned message is the rate-limit message, not the
generic failure message containing the raw stderr text (the message does
not even contain the stderr text). -/
theorem rate_limit_breaks_generic_claim :
    containsSub "Private".data (pystrip "Rate limit".data) = false ∧
    containsSub "404".data (pystrip "Rate limit".data) = false ∧
    download_content (.completed 1 [] "Rate limit".data) = (false, rateLimitMsg) ∧
    containsSub "Rate limit".data rateLimitMsg = false ∧
    rateLimitMsg ≠ "Download failed: ".data ++ "Rate limit".data := by
  refine ⟨by decide, by decide, ?_, by decide, by decide⟩
  rfl

/-- C2 amended: for a nonzero return code the stripped stderr is
classified in source order: containing `"Private"` (or `"Login required"`)
yields the private message; otherwise containing `"404"` (or, lowercased,
`"not found"`) yields the not-found message; otherwise containing
`"Rate limit"` yields the rate-limit message; otherwise the generic
message carries the stripped stderr text (or `"Unknown error"` when it is
empty). -/
theorem download_error_classification (rc : Int) (err : List Char) (hrc : rc ≠ 0) :
    (containsSub "Private".data (pystrip err) = true →
      download_content (.completed rc [] err) = (false, privateMsg)) ∧
    (containsSub "Private".data (pystrip err) = false →
     containsSub "Login required".data (pystrip err) = false →
     containsSub "404".data (pystrip err) = true →
      download_content (.completed rc [] err) = (false, notFoundMsg)) ∧
    (containsSub "Private".data (pystrip err) = false →
     containsSub "Login required".data (pystrip err) = false →
     containsSub "404".data (pystrip err) = false →
     containsSub "not found".data (lowerStr (pystrip err)) = false →
     containsSub "Rate limit".data (pystrip err) = true →
      download_content (.completed rc [] err) = (false, rateLimitMsg)) ∧
    (containsSub "Private".data (pystrip err) = false →
     containsSub "Login required".data (pystrip err) = false →
     containsSub "404".data (pystrip err) = false →
     containsSub "not found".data (lowerStr (pystrip err)) = false →
     containsSub "Rate limit".data (pystrip err) = false →
     (pystrip err).isEmpty = false →
      download_content (.completed rc [] err)
        = (false, "Download failed: ".data ++ pystrip err)) := by
  refine ⟨?_, ?_, ?_, ?_⟩
  · intro h1
    simp [download_content, hrc, failureMessage, h1]
  · intro h1 h2 h3
    simp [download_content, hrc, failureMessage, h1, h2, h3]
  · intro h1 h2 h3 h4 h5
    simp [download_content, hrc, failureMessage, h1, h2, h3, h4, h5]
  · intro h1 h2 h3 h4 h5 h6
    simp [download_content, hrc, failureMessage, h1, h2, h3, h4, h5, h6]

theorem download_error_classification_witness :
    ((1 : Int) ≠ 0) ∧
    ((containsSub "Private".data (pystrip "boom".data) = true →
       download_content (.completed 1 [] "boom".data) = (false, privateMsg)) ∧
     (containsSub "Private".data (pystrip "boom".data) = false →
      containsSub "Login required".data (pystrip "boom".data) = false →
      containsSub "404".data (pystrip "boom".data) = true →
       download_content (.completed 1 [] "boom".data) = (false, notFoundMsg)) ∧
     (containsSub "Private".data (pystrip "boom".data) = false →
      containsSub "Login required".data (pystrip "boom".data) = false →
      containsSub "404".data (pystrip "boom".data) = false →
      containsSub "not found".data (lowerStr (pystrip "boom".data)) = false →
      containsSub "Rate limit".data (pystrip "boom".data) = true →
       download_content (.completed 1 [] "boom".data) = (false, rateLimitMsg)) ∧
     (containsSub "Private".data (pystrip "boom".data) = false →
      containsSub "Login required".data (pystrip "boom".data) = false →
      containsSub "404".data (pystrip "boom".data) = false →
      containsSub "not found".data (lowerStr (pystrip "boom".data)) = false →
      containsSub "Rate limit".data (pystrip "boom".data) = false →
      (pystrip "boom".data).isEmpty = false →
       download_content (.completed 1 [] "boom".data)
         = (false, "Download failed: ".data ++ pystrip "boom".data))) :=
  ⟨by decide, download_error_classification 1 "boom".data (by decide)⟩

/-- C9: the classification has branches beyond the ones the spec lists:
`"Login required"` also reaches the private/login message; a
case-insensitive `"not found"` also reaches the not-found message (when
the private branch did not fire); `"Rate limit"` reaches a dedicated
rate-limit message (when the earlier branches did not fire); and an empty
(all-whitespace) stderr yields `"Download failed: Unknown error"` instead
of the raw empty text. -/
theorem download_error_extra_branches (rc : Int) (err : List Char) (hrc : rc ≠ 0) :
    (containsSub "Login required".data (pystrip err) = true →
      download_content (.completed rc [] err) = (false, privateMsg)) ∧
    (containsSub "Private".data (pystrip err) = false →
     containsSub "Login required".data (pystrip err) = false →
     containsSub "not found".data (lowerStr (pystrip err)) = true →
      download_content (.completed rc [] err) = (false, notFoundMsg)) ∧
    (containsSub "Private".data (pystrip err) = false →
     containsSub "Login required".data (pystrip err) = false →
     containsSub "404".data (pystrip err) = false →
     containsSub "not found".data (lowerStr (pystrip err)) = false →
     containsSub "Rate limit".data (pystrip err) = true →
      download_content (.completed rc [] err) = (false, rateLimitMsg)) ∧
    (pystrip err = [] →
      download_content (.completed rc [] err)
        = (false, "Download failed: Unknown error".data)) := by
  refine ⟨?_, ?_, ?_, ?_⟩
  · intro h1
    simp [download_content, hrc, failureMessage, h1]
  · intro h1 h2 h3
    simp [download_content, hrc, failureMessage, h1, h2, h3]
  · intro h1 h2 h3 h4 h5
    simp [download_content, hrc, failureMessage, h1, h2, h3, h4, h5]
  · intro h1
    simp only [download_content, if_neg hrc, failureMessage, h1]
    decide

theorem download_error_extra_branches_witness :
    ((1 : Int) ≠ 0) ∧
    ((containsSub "Login required".data (pystrip "Login required".data) = true →
       download_content (.completed 1 [] "Login required".data)
         = (false, privateMsg)) ∧
     (containsSub "Private".data (pystrip "Login required".data) = false →
      containsSub "Login required".data (pystrip "Login required".data) = false →
      containsSub "not found".data (lowerStr (pystrip "Login required".data)) = true →
       download_content (.completed 1 [] "Login required".data)
         = (false, notFoundMsg)) ∧
     (containsSub "Private".data (pystrip "Login required".data) = false →
      containsSub "Login required".data (pystrip "Login required".data) = false →
      containsSub "404".data (pystrip "Login required".data) = false →
      containsSub "not found".data (lowerStr (pystrip "Login required".data)) = false →
      containsSub "Rate limit".data (pystrip "Login required".data) = true →
       download_content (.completed 1 [] "Login required".data)
         = (false, rateLimitMsg)) ∧
     (pystrip "Login required".data = [] →
       download_content (.completed 1 [] "Login required".data)
         = (false, "Download failed: Unknown error".data))) :=
  ⟨by decide, download_error_extra_branches 1 "Login required".data (by decide)⟩

/-- C8: `download_content` is total at its interface: every process
outcome, including an exception raised during launch or supervision, is
mapped to a `(success, message)` pair, and every exception becomes a
failure result carrying the exception text. -/
theorem download_content_total_and_catches :
    (∀ o, download_content o = (true, successMsg) ∨ (download_content o).1 = false) ∧
    (∀ e, download_content (.raised e)
        = (false, "An unexpected error occurred: ".data ++ e)) := by
  constructor
  · intro o
    match o with
    | .completed rc out err =>
      by_cases h : rc = 0
      · exact Or.inl (by simp [download_content, h])
      · exact Or.inr (by simp [download_content, h])
    | .raised m => exact Or.inr rfl
  · intro e
    rfl

/-! ### Helper lemmas about the file relocation walk -/

theorem moveFiles_dest_eq (dest : List (List Char)) (l : List (List Char)) :
    (moveFiles dest l).1 = dest ++ (moveFiles dest l).2 := by
  induction l generalizing dest with
  | nil => simp [moveFiles]
  | cons f l ih =>
    simp only [moveFiles, moveFile]
    rw [ih]
    simp

theorem moveFiles_length (dest : List (List Char)) (l : List (List Char)) :
    (moveFiles dest l).2.length = l.length := by
  induction l generalizing dest with
  | nil => simp [moveFiles]
  | cons f l ih => simp [moveFiles, moveFile, ih]

theorem processDir_dest_eq (dest : List (List Char)) (d : DirEntry) :
    (processDir dest d).1 = dest ++ (processDir dest d).2.1 := by
  unfold processDir
  match d.failAt with
  | none => exact moveFiles_dest_eq _ _
  | some k =>
    by_cases h : k ≤ d.files.length
    · simp only [h, if_true]
      exact moveFiles_dest_eq _ _
    · simp only [h, if_false]
      exact moveFiles_dest_eq _ _

theorem processDir_keeps_name {dest : List (List Char)} {d d2 : DirEntry}
    (h : (processDir dest d).2.2 = some d2) : d2.name = d.name := by
  unfold processDir at h
  match hf : d.failAt with
  | none => rw [hf] at h; simp at h
  | some k =>
    rw [hf] at h
    by_cases hk : k ≤ d.files.length
    · simp only [hk, if_true] at h
      cases h
      rfl
    · simp only [hk, if_false] at h
      simp at h

theorem runItems_dest_eq (t : List Char) (dest : List (List Char))
    (items : List Item) :
    (runItems t dest items).2.1 = dest ++ (runItems t dest items).2.2 := by
  induction items generalizing dest with
  | nil => simp [runItems]
  | cons it rest ih =>
    cases it with
    | file n => simpa [runItems] using ih dest
    | dir d =>
      by_cases h : (d.name == t) || hiddenName d.name
      · simpa [runItems, h] using ih dest
      · simp only [runItems, h, Bool.false_eq_true, if_false]
        rw [ih ((processDir dest d).1), processDir_dest_eq]
        simp

theorem runItems_append (t : List Char) (dest : List (List Char))
    (xs ys : List Item) :
    runItems t dest (xs ++ ys) =
      ((runItems t dest xs).1 ++ (runItems t (runItems t dest xs).2.1 ys).1,
       (runItems t (runItems t dest xs).2.1 ys).2.1,
       (runItems t dest xs).2.2 ++ (runItems t (runItems t dest xs).2.1 ys).2.2) := by
  induction xs generalizing dest with
  | nil => simp [runItems]
  | cons it xs ih =>
    cases it with
    | file n => simp [runItems, ih]
    | dir d =>
      by_cases h : (d.name == t) || hiddenName d.name
      · simp [runItems, h, ih]
      · cases hp : (processDir dest d).2.2 <;>
          simp [runItems, h, ih, hp]

theorem runItems_names_sub (t : List Char) (dest : List (List Char))
    (items : List Item) :
    ∀ it ∈ (runItems t dest items).1, itemName it ∈ items.map itemName := by
  induction items generalizing dest with
  | nil => simp [runItems]
  | cons hd rest ih =>
    intro it hit
    cases hd with
    | file n =>
      simp only [runItems, List.mem_cons] at hit
      rcases hit with rfl | hit
      · simp [itemName]
      · simpa using Or.inr (ih dest it hit)
    | dir d =>
      by_cases h : (d.name == t) || hiddenName d.name
      · simp only [runItems, h, if_true, List.mem_cons] at hit
        rcases hit with rfl | hit
        · simp [itemName]
        · simpa using Or.inr (ih dest it hit)
      · simp only [runItems, h, Bool.false_eq_true, if_false] at hit
        cases hp : (processDir dest d).2.2 with
        | none =>
          rw [hp] at hit
          simp only [Option.elim] at hit
          simpa using Or.inr (ih _ it hit)
        | some d2 =>
          rw [hp] at hit
          simp only [Option.elim, List.mem_cons] at hit
          rcases hit with rfl | hit
          · simp [itemName, processDir_keeps_name hp]
          · simpa using Or.inr (ih _ it hit)

theorem runItems_keeps_skipped (t : List Char) (dest : List (List Char))
    (items : List Item) :
    ∀ it ∈ items, processedItem t it = false → it ∈ (runItems t dest items).1 := by
  induction items generalizing dest with
  | nil => simp
  | cons hd rest ih =>
    intro it hit hskip
    rcases List.mem_cons.mp hit with rfl | hmem
    · cases it with
      | file n => simp [runItems]
      | dir d =>
        have h : ((d.name == t) || hiddenName d.name) = true := by
          cases hb : ((d.name == t) || hiddenName d.name) with
          | true => rfl
          | false =>
            rw [show processedItem t (Item.dir d)
                  = !((d.name == t) || hiddenName d.name) from rfl, hb] at hskip
            simp at hskip
        simp [runItems, h]
    · cases hd with
      | file n =>
        simp only [runItems, List.mem_cons]
        exact Or.inr (ih dest it hmem hskip)
      | dir d =>
        by_cases h : (d.name == t) || hiddenName d.name
        · simp only [runItems, h, if_true, List.mem_cons]
          exact Or.inr (ih dest it hmem hskip)
        · simp only [runItems, h, Bool.false_eq_true, if_false]
          cases hp : (processDir dest d).2.2 with
          | none =>
            simpa [Option.elim] using ih _ it hmem hskip
          | some d2 =>
            simp only [Option.elim, List.mem_cons]
            exact Or.inr (ih _ it hmem hskip)

/-! ### Claim theorems: file relocation -/

/-- C4: when the destination already holds `a.jpg` and no `a_1.jpg`,
relocating another `a.jpg` places it at `a_1.jpg`; the destination ends up
as the old contents plus `a_1.jpg`, so the pre-existing `a.jpg` entry is
untouched. -/
theorem dest_collision_renamed (dest : List (List Char)) (dname tgt : List Char)
    (h1 : dest.contains "a.jpg".data = true)
    (h2 : dest.contains "a_1.jpg".data = false)
    (hne : (dname == tgt) = false) (hh : hiddenName dname = false) :
    move_and_collect_files ⟨tgt, some dest, [.dir ⟨dname, ["a.jpg".data], none⟩]⟩
      = (⟨tgt, some (dest ++ ["a_1.jpg".data]), []⟩, ["a_1.jpg".data]) ∧
    "a.jpg".data ∈ dest ++ ["a_1.jpg".data] := by
  have hres : resolveCollision dest "a.jpg".data = "a_1.jpg".data := by
    rw [resolveCollision, if_pos h1,
      show splitext "a.jpg".data = ("a".data, ".jpg".data) from by decide]
    show renameLoop dest "a".data ".jpg".data 1 (dest.length + 1) = "a_1.jpg".data
    rw [renameLoop,
      show numberedName "a".data ".jpg".data 1 = "a_1.jpg".data from by decide]
    exact if_neg (by simpa using h2)
  constructor
  · simp [move_and_collect_files, runItems, hne, hh, processDir, moveFiles,
      moveFile, hres]
  · have : "a.jpg".data ∈ dest := by simpa using h1
    simp [this]

theorem dest_collision_renamed_witness :
    (["a.jpg".data, "b.mp4".data] : List (List Char)).contains "a.jpg".data = true ∧
    (["a.jpg".data, "b.mp4".data] : List (List Char)).contains "a_1.jpg".data = false ∧
    (move_and_collect_files
        ⟨"out".data, some ["a.jpg".data, "b.mp4".data],
         [.dir ⟨"prof".data, ["a.jpg".data], none⟩]⟩
      = (⟨"out".data, some (["a.jpg".data, "b.mp4".data] ++ ["a_1.jpg".data]), []⟩,
         ["a_1.jpg".data]) ∧
     "a.jpg".data ∈ ["a.jpg".data, "b.mp4".data] ++ ["a_1.jpg".data]) :=
  ⟨by decide, by decide,
   dest_collision_renamed ["a.jpg".data, "b.mp4".data] "prof".data "out".data
     (by decide) (by decide) (by decide) (by decide)⟩

/-- C5: when every filesystem operation on an eligible source directory
succeeds (`failAt = none`), the directory is gone from the working
directory after the run, its name appearing on no remaining item, and its
entire contents were moved: the moved list contains one entry per file of
the directory, placed after the moves of the earlier items. -/
theorem source_dir_removed_after_success (tgt dname : List Char)
    (dest : List (List Char)) (pre post : List Item) (files : List (List Char))
    (hne : (dname == tgt) = false) (hh : hiddenName dname = false)
    (hfresh : dname ∉ (pre ++ post).map itemName) :
    (∀ it ∈ (runItems tgt dest (pre ++ .dir ⟨dname, files, none⟩ :: post)).1,
        itemName it ≠ dname) ∧
    (runItems tgt dest (pre ++ .dir ⟨dname, files, none⟩ :: post)).2.2
      = (runItems tgt dest pre).2.2
          ++ (moveFiles (runItems tgt dest pre).2.1 files).2
          ++ (runItems tgt (moveFiles (runItems tgt dest pre).2.1 files).1 post).2.2 ∧
    (moveFiles (runItems tgt dest pre).2.1 files).2.length = files.length := by
  have hcond : ((dname == tgt) || hiddenName dname) = false := by simp [hne, hh]
  have hrw := runItems_append tgt dest pre (Item.dir ⟨dname, files, none⟩ :: post)
  have hstep :
      runItems tgt (runItems tgt dest pre).2.1 (Item.dir ⟨dname, files, none⟩ :: post)
        = ((runItems tgt (moveFiles (runItems tgt dest pre).2.1 files).1 post).1,
           (runItems tgt (moveFiles (runItems tgt dest pre).2.1 files).1 post).2.1,
           (moveFiles (runItems tgt dest pre).2.1 files).2
             ++ (runItems tgt (moveFiles (runItems tgt dest pre).2.1 files).1 post).2.2) := by
    simp [runItems, hcond, processDir]
  rw [hstep] at hrw
  simp only [List.map_append, List.mem_append, not_or] at hfresh
  refine ⟨?_, ?_, moveFiles_length _ _⟩
  · intro it hit heq
    rw [hrw] at hit
    simp only [List.mem_append] at hit
    rcases hit with hit | hit
    · have hn := runItems_names_sub tgt dest pre it hit
      rw [heq] at hn
      exact hfresh.1 hn
    · have hn := runItems_names_sub tgt
        (moveFiles (runItems tgt dest pre).2.1 files).1 post it hit
      rw [heq] at hn
      exact hfresh.2 hn
  · rw [hrw]
    simp [List.append_assoc]

theorem source_dir_removed_after_success_witness :
    (("prof".data == "out".data) = false) ∧
    hiddenName "prof".data = false ∧
    ("prof".data ∉ ([Item.file "f.txt".data]
        ++ [Item.dir ⟨"prof2".data, ["a.jpg".data], none⟩]).map itemName) ∧
    ((∀ it ∈ (runItems "out".data ["a.jpg".data]
          ([Item.file "f.txt".data]
            ++ .dir ⟨"prof".data, ["a.jpg".data, "b.mp4".data], none⟩
            :: [Item.dir ⟨"prof2".data, ["a.jpg".data], none⟩])).1,
        itemName it ≠ "prof".data) ∧
     (runItems "out".data ["a.jpg".data]
          ([Item.file "f.txt".data]
            ++ .dir ⟨"prof".data, ["a.jpg".data, "b.mp4".data], none⟩
            :: [Item.dir ⟨"prof2".data, ["a.jpg".data], none⟩])).2.2
       = (runItems "out".data ["a.jpg".data] [Item.file "f.txt".data]).2.2
           ++ (moveFiles
                 (runItems "out".data ["a.jpg".data] [Item.file "f.txt".data]).2.1
                 ["a.jpg".data, "b.mp4".data]).2
           ++ (runItems "out".data
                 (moveFiles
                   (runItems "out".data ["a.jpg".data] [Item.file "f.txt".data]).2.1
                   ["a.jpg".data, "b.mp4".data]).1
                 [Item.dir ⟨"prof2".data, ["a.jpg".data], none⟩]).2.2 ∧
     (moveFiles (runItems "out".data ["a.jpg".data] [Item.file "f.txt".data]).2.1
        ["a.jpg".data, "b.mp4".data]).2.length
       = (["a.jpg".data, "b.mp4".data] : List (List Char)).length) :=
  ⟨by decide, by decide, by decide,
   source_dir_removed_after_success "out".data "prof".data ["a.jpg".data]
     [Item.file "f.txt".data] [Item.dir ⟨"prof2".data, ["a.jpg".data], none⟩]
     ["a.jpg".data, "b.mp4".data] (by decide) (by decide) (by decide)⟩

/-- C7: an `OSError` while relocating one eligible source directory (at
file index `k`) is non-fatal: the files moved before the failure stay
moved and recorded, the directory survives with its unmoved files, the
remaining items are still processed, and the returned list is the moves
made so far plus those from the later items. -/
theorem dir_failure_nonfatal (tgt dname : List Char) (dest : List (List Char))
    (pre post : List Item) (files : List (List Char)) (k : Nat)
    (hk : k ≤ files.length)
    (hne : (dname == tgt) = false) (hh : hiddenName dname = false) :
    runItems tgt dest (pre ++ .dir ⟨dname, files, some k⟩ :: post)
      = ((runItems tgt dest pre).1
           ++ .dir ⟨dname, files.drop k, some k⟩
           :: (runItems tgt (moveFiles (runItems tgt dest pre).2.1 (files.take k)).1 post).1,
         (runItems tgt (moveFiles (runItems tgt dest pre).2.1 (files.take k)).1 post).2.1,
         (runItems tgt dest pre).2.2
           ++ (moveFiles (runItems tgt dest pre).2.1 (files.take k)).2
           ++ (runItems tgt (moveFiles (runItems tgt dest pre).2.1 (files.take k)).1 post).2.2) := by
  have hcond : ((dname == tgt) || hiddenName dname) = false := by simp [hne, hh]
  rw [runItems_append]
  simp [runItems, hcond, processDir, hk, List.append_assoc]

theorem dir_failure_nonfatal_witness :
    (1 ≤ (["a.jpg".data, "b.mp4".data] : List (List Char)).length) ∧
    runItems "out".data []
        ([] ++ .dir ⟨"prof".data, ["a.jpg".data, "b.mp4".data], some 1⟩
          :: [Item.dir ⟨"prof2".data, ["c.png".data], none⟩])
      = ((runItems "out".data [] []).1
           ++ .dir ⟨"prof".data, (["a.jpg".data, "b.mp4".data] : List (List Char)).drop 1, some 1⟩
           :: (runItems "out".data
                 (moveFiles (runItems "out".data [] []).2.1
                   ((["a.jpg".data, "b.mp4".data] : List (List Char)).take 1)).1
                 [Item.dir ⟨"prof2".data, ["c.png".data], none⟩]).1,
         (runItems "out".data
             (moveFiles (runItems "out".data [] []).2.1
               ((["a.jpg".data, "b.mp4".data] : List (List Char)).take 1)).1
             [Item.dir ⟨"prof2".data, ["c.png".data], none⟩]).2.1,
         (runItems "out".data [] []).2.2
           ++ (moveFiles (runItems "out".data [] []).2.1
                 ((["a.jpg".data, "b.mp4".data] : List (List Char)).take 1)).2
           ++ (runItems "out".data
                 (moveFiles (runItems "out".data [] []).2.1
                   ((["a.jpg".data, "b.mp4".data] : List (List Char)).take 1)).1
                 [Item.dir ⟨"prof2".data, ["c.png".data], none⟩]).2.2) :=
  ⟨by decide,
   dir_failure_nonfatal "out".data "prof".data [] []
     [Item.dir ⟨"prof2".data, ["c.png".data], none⟩]
     ["a.jpg".data, "b.mp4".data] 1 (by decide) (by decide) (by decide)⟩

/-- C10: `move_and_collect_files` ends with the destination folder
existing (created when missing); every item the outer loop does not
process — plain files, the destination folder itself, hidden directories —
is still present afterwards; and the destination only grows: its final
contents are its old contents followed by the moved files, so nothing
already inside it is moved, renamed or deleted. -/
theorem move_frame_conditions (fs : FS) :
    ((move_and_collect_files fs).1.destFiles).isSome = true ∧
    (∀ it ∈ fs.items, processedItem fs.target it = false →
        it ∈ (move_and_collect_files fs).1.items) ∧
    (∀ old, fs.destFiles = some old →
        (move_and_collect_files fs).1.destFiles
          = some (old ++ (move_and_collect_files fs).2)) := by
  refine ⟨?_, ?_, ?_⟩
  · simp [move_and_collect_files]
  · intro it hit hskip
    simpa [move_and_collect_files] using
      runItems_keeps_skipped fs.target (fs.destFiles.getD []) fs.items it hit hskip
  · intro old hold
    simp only [move_and_collect_files, hold, Option.getD_some]
    rw [runItems_dest_eq]

theorem move_frame_conditions_witness :
    (Item.file "main.py".data
      ∈ (FS.mk "out".data (some ["x.jpg".data])
          [Item.file "main.py".data,
           Item.dir ⟨".git".data, ["cfg".data], none⟩,
           Item.dir ⟨"prof".data, ["a.jpg".data], none⟩]).items) ∧
    processedItem "out".data (Item.file "main.py".data) = false ∧
    ((move_and_collect_files
        (FS.mk "out".data (some ["x.jpg".data])
          [Item.file "main.py".data,
           Item.dir ⟨".git".data, ["cfg".data], none⟩,
           Item.dir ⟨"prof".data, ["a.jpg".data], none⟩])).1.destFiles).isSome = true ∧
    Item.file "main.py".data
      ∈ (move_and_collect_files
          (FS.mk "out".data (some ["x.jpg".data])
            [Item.file "main.py".data,
             Item.dir ⟨".git".data, ["cfg".data], none⟩,
             Item.dir ⟨"prof".data, ["a.jpg".data], none⟩])).1.items ∧
    (move_and_collect_files
        (FS.mk "out".data (some ["x.jpg".data])
          [Item.file "main.py".data,
           Item.dir ⟨".git".data, ["cfg".data], none⟩,
           Item.dir ⟨"prof".data, ["a.jpg".data], none⟩])).1.destFiles
      = some (["x.jpg".data]
          ++ (move_and_collect_files
                (FS.mk "out".data (some ["x.jpg".data])
                  [Item.file "main.py".data,
                   Item.dir ⟨".git".data, ["cfg".data], none⟩,
                   Item.dir ⟨"prof".data, ["a.jpg".data], none⟩])).2) :=
  ⟨by decide, by decide,
   (move_frame_conditions _).1,
   (move_frame_conditions _).2.1 _ (by decide) (by decide),
   (move_frame_conditions _).2.2 ["x.jpg".data] rfl⟩

end InstaDL
